import Mathlib

/-!
Shallow embedding of the order / inventory / cart / review core of the
`mdb-ecom-app` backend (FastAPI + Beanie/MongoDB), and proofs of the
behavioural claims about it.

Modelling conventions:
* Python `float` money amounts are modelled as exact rationals (`ℚ`);
  decimal literals such as `9.99` and `0.08` denote the exact decimals.
* Python `int` is modelled as `Int`.
* `datetime.utcnow()` is modelled by an explicit `now : Nat` parameter;
  generated identifiers (order numbers, transaction ids, document ids)
  are explicit `String` parameters.
* Each Beanie `Document` collection is a `List` in a `DB` record; `get`
  is first-match lookup by id and `save` replaces the first document
  with the same id.  Handlers are state-passing functions returning
  `Except Err α × DB`; an exception raised by the Python code before a
  `save` corresponds to returning the database unchanged up to that
  point.
-/

namespace Ecom

/-- Python `round(x, 2)` (model: round to the nearest cent). -/
def round2 (q : ℚ) : ℚ := (round (q * 100) : ℚ) / 100

/-- Python `int(x)` on a float: truncation toward zero. -/
def pyInt (q : ℚ) : Int := if 0 ≤ q then ⌊q⌋ else ⌈q⌉

/-! ## Data model (`app/models/product.py`, `user.py`, `order.py`, `cart.py`, `review.py`) -/

/-- `InventoryInfo` from `models/product.py`. -/
structure InventoryInfo where
  quantity : Int
  reserved : Int
  deriving Repr, DecidableEq

/-- `ProductVariant` from `models/product.py` (fields the core logic reads). -/
structure ProductVariant where
  variant_id : String
  name : String
  sku : String
  price : ℚ
  inventory : InventoryInfo
  deriving Repr, DecidableEq

/-- `Product` document from `models/product.py` (fields the core logic reads);
`product_id` stands for the Mongo document id. -/
structure Product where
  product_id : String
  name : String
  variants : List ProductVariant
  deriving Repr, DecidableEq

/-- `Product.get_variant_by_id`: first variant with the given id, else `None`. -/
def Product.get_variant_by_id (p : Product) (variant_id : String) : Option ProductVariant :=
  p.variants.find? (fun v => v.variant_id == variant_id)

/-- `Address` from `models/user.py` (only the identifying field is read by the
order endpoints; the remaining profile fields are inert payload). -/
structure Address where
  address_id : String
  deriving Repr, DecidableEq

/-- `PaymentMethod` from `models/user.py` (fields the order endpoints read). -/
structure PaymentMethod where
  method_id : String
  type : String
  deriving Repr, DecidableEq

/-- `LoyaltyProgram` from `models/user.py`. -/
structure LoyaltyProgram where
  points : Int
  tier : String
  lifetime_spent : ℚ
  deriving Repr, DecidableEq

/-- `User` document from `models/user.py` (fields the order endpoints read);
`user_id` stands for the Mongo document id. -/
structure User where
  user_id : String
  addresses : List Address
  payment_methods : List PaymentMethod
  loyalty : LoyaltyProgram
  deriving Repr, DecidableEq

/-- The tier step function inside `User.add_loyalty_points`. -/
def loyaltyTierOf (lifetime_spent : ℚ) : String :=
  if lifetime_spent ≥ 5000 then "platinum"
  else if lifetime_spent ≥ 2500 then "gold"
  else if lifetime_spent ≥ 1000 then "silver"
  else "bronze"

/-- `User.add_loyalty_points`: add points, add to lifetime spend, re-derive tier. -/
def User.add_loyalty_points (u : User) (points : Int) (amount_spent : ℚ) : User :=
  let spent := u.loyalty.lifetime_spent + amount_spent
  { u with
    loyalty :=
      { points := u.loyalty.points + points
        tier := loyaltyTierOf spent
        lifetime_spent := spent } }

/-- `OrderItem` from `models/order.py`. -/
structure OrderItem where
  product_id : String
  variant_id : String
  sku : String
  name : String
  price : ℚ
  quantity : Int
  total : ℚ
  deriving Repr, DecidableEq

/-- `OrderSummary` from `models/order.py`. -/
structure OrderSummary where
  subtotal : ℚ
  tax : ℚ
  shipping : ℚ
  discount : ℚ
  total : ℚ
  deriving Repr, DecidableEq

/-- `PaymentInfo` from `models/order.py` (fields `create_order` sets). -/
structure PaymentInfo where
  method : String
  status : String
  transaction_id : String
  amount : ℚ
  currency : String
  deriving Repr, DecidableEq

/-- `OrderTimeline` entry from `models/order.py`. -/
structure OrderTimeline where
  status : String
  timestamp : Nat
  note : Option String
  deriving Repr, DecidableEq

/-- `Order` document from `models/order.py`; `order_id` stands for the Mongo
document id, `created_at` for the creation timestamp used to sort listings. -/
structure Order where
  order_id : String
  order_number : String
  user_id : String
  status : String
  items : List OrderItem
  summary : OrderSummary
  shipping_address : Address
  billing_address : Address
  payment : PaymentInfo
  timeline : List OrderTimeline
  notes : Option String
  created_at : Nat
  deriving Repr, DecidableEq

/-- `Order.add_timeline_entry`: append a timeline entry and set `status`. -/
def Order.add_timeline_entry (o : Order) (status : String) (note : Option String)
    (now : Nat) : Order :=
  { o with timeline := o.timeline ++ [⟨status, now, note⟩], status := status }

/-- `CartItem` from `models/cart.py`. -/
structure CartItem where
  product_id : String
  variant_id : String
  quantity : Int
  price : ℚ
  added_at : Nat
  deriving Repr, DecidableEq

/-- `CartTotals` from `models/cart.py`. -/
structure CartTotals where
  items_count : Int
  subtotal : ℚ
  estimated_tax : ℚ
  estimated_shipping : ℚ
  estimated_total : ℚ
  deriving Repr, DecidableEq

/-- `Cart` document from `models/cart.py` (fields the core logic reads). -/
structure Cart where
  user_id : Option String
  session_id : Option String
  items : List CartItem
  totals : CartTotals
  deriving Repr, DecidableEq

/-- The totals of a cart item list, as computed by `Cart.calculate_totals`. -/
def cartTotalsOf (items : List CartItem) : CartTotals :=
  let items_count := (items.map (fun i => i.quantity)).sum
  let subtotal := (items.map (fun i => i.price * (i.quantity : ℚ))).sum
  let estimated_tax := subtotal * 0.08
  let estimated_shipping : ℚ := if subtotal ≥ 50 then 0 else 9.99
  { items_count := items_count
    subtotal := subtotal
    estimated_tax := estimated_tax
    estimated_shipping := estimated_shipping
    estimated_total := subtotal + estimated_tax + estimated_shipping }

/-- `Cart.calculate_totals`: recompute `totals` from the current items. -/
def Cart.calculate_totals (c : Cart) : Cart :=
  { c with totals := cartTotalsOf c.items }

/-- First-match branch of `Cart.add_item`: bump the quantity of an existing
line, refreshing `added_at`; `none` when no line matches. -/
def bumpQuantityFirst (product_id variant_id : String) (quantity : Int) (now : Nat) :
    List CartItem → Option (List CartItem)
  | [] => none
  | i :: rest =>
    if i.product_id == product_id && i.variant_id == variant_id then
      some ({ i with quantity := i.quantity + quantity, added_at := now } :: rest)
    else
      (bumpQuantityFirst product_id variant_id quantity now rest).map (i :: ·)

/-- `Cart.add_item`: bump an existing line or append a new one, then recompute
totals. -/
def Cart.add_item (c : Cart) (product_id variant_id : String) (quantity : Int)
    (price : ℚ) (now : Nat) : Cart :=
  match bumpQuantityFirst product_id variant_id quantity now c.items with
  | some items => Cart.calculate_totals { c with items := items }
  | none =>
      Cart.calculate_totals
        { c with items := c.items ++ [⟨product_id, variant_id, quantity, price, now⟩] }

/-- First-match branch of `Cart.update_item_quantity`: set the quantity of an
existing line (dropping it when the new quantity is `≤ 0`); `none` when no
line matches. -/
def setQuantityFirst (product_id variant_id : String) (quantity : Int) (now : Nat) :
    List CartItem → Option (List CartItem)
  | [] => none
  | i :: rest =>
    if i.product_id == product_id && i.variant_id == variant_id then
      some (if quantity ≤ 0 then rest
            else { i with quantity := quantity, added_at := now } :: rest)
    else
      (setQuantityFirst product_id variant_id quantity now rest).map (i :: ·)

/-- `Cart.update_item_quantity`: returns the updated cart and the `bool` the
Python method returns (`false` when no line matched, cart untouched). -/
def Cart.update_item_quantity (c : Cart) (product_id variant_id : String)
    (quantity : Int) (now : Nat) : Cart × Bool :=
  match setQuantityFirst product_id variant_id quantity now c.items with
  | some items => (Cart.calculate_totals { c with items := items }, true)
  | none => (c, false)

/-- First-match branch of `Cart.remove_item`; `none` when no line matches. -/
def removeItemFirst (product_id variant_id : String) :
    List CartItem → Option (List CartItem)
  | [] => none
  | i :: rest =>
    if i.product_id == product_id && i.variant_id == variant_id then
      some rest
    else
      (removeItemFirst product_id variant_id rest).map (i :: ·)

/-- `Cart.remove_item`: returns the updated cart and the returned `bool`. -/
def Cart.remove_item (c : Cart) (product_id variant_id : String) : Cart × Bool :=
  match removeItemFirst product_id variant_id c.items with
  | some items => (Cart.calculate_totals { c with items := items }, true)
  | none => (c, false)

/-- `Cart.clear_cart`: drop all items and recompute totals. -/
def Cart.clear_cart (c : Cart) : Cart :=
  Cart.calculate_totals { c with items := [] }

end Ecom

namespace Ecom

/-! ## Error model: the `HTTPException` sites of the endpoints -/

/-- The exceptions the embedded endpoints raise; `statusCode`/`detail` below
recover the exact HTTP observable of each raise site. -/
inductive Err where
  | notFound (detail : String)
  | forbidden (detail : String)
  | insufficientStock (productName : String) (available : Int)
  | badRequest (detail : String)
  deriving Repr, DecidableEq

/-- The HTTP status code of each raise site. -/
def Err.statusCode : Err → Nat
  | .notFound _ => 404
  | .forbidden _ => 403
  | .insufficientStock _ _ => 400
  | .badRequest _ => 400

/-- The `detail` string of each raise site; the stock error renders the
f-string of `create_order`, which embeds the available quantity. -/
def Err.detail : Err → String
  | .notFound d => d
  | .forbidden d => d
  | .insufficientStock productName available =>
      "Insufficient stock for " ++ productName ++ ". Available: " ++ toString available
  | .badRequest d => d

/-! ## The database state -/

/-- `ReviewVote` document from `models/review.py`. -/
structure ReviewVote where
  review_id : String
  user_id : String
  is_helpful : Bool
  deriving Repr, DecidableEq

/-- `Review` document from `models/review.py` (fields the vote endpoint
reads); `review_id` stands for the Mongo document id. -/
structure Review where
  review_id : String
  product_id : String
  user_id : String
  helpful_votes : Int
  total_votes : Int
  deriving Repr, DecidableEq

/-- `Review.add_helpful_vote`: bump `total_votes`, and `helpful_votes` when
the vote is helpful. -/
def Review.add_helpful_vote (r : Review) (is_helpful : Bool) : Review :=
  { r with
    total_votes := r.total_votes + 1
    helpful_votes := if is_helpful then r.helpful_votes + 1 else r.helpful_votes }

/-- The document collections the embedded endpoints touch. -/
structure DB where
  users : List User
  products : List Product
  orders : List Order
  carts : List Cart
  reviews : List Review
  review_votes : List ReviewVote
  deriving Repr, DecidableEq

/-- `User.get`. -/
def DB.getUser (db : DB) (user_id : String) : Option User :=
  db.users.find? (fun u => u.user_id == user_id)

/-- `Product.get`. -/
def DB.getProduct (db : DB) (product_id : String) : Option Product :=
  db.products.find? (fun p => p.product_id == product_id)

/-- `Order.get`. -/
def DB.getOrder (db : DB) (order_id : String) : Option Order :=
  db.orders.find? (fun o => o.order_id == order_id)

/-- `Order.find_one(Order.order_number == n)`. -/
def DB.findOrderByNumber (db : DB) (order_number : String) : Option Order :=
  db.orders.find? (fun o => o.order_number == order_number)

/-- `Cart.find_one(Cart.user_id == uid)`. -/
def DB.findCartByUser (db : DB) (user_id : String) : Option Cart :=
  db.carts.find? (fun c => c.user_id == some user_id)

/-- `user.save()`: replace the document with the same id. -/
def saveUser (u : User) : List User → List User
  | [] => []
  | v :: rest => if v.user_id == u.user_id then u :: rest else v :: saveUser u rest

/-- `order.save()`: replace the document with the same id. -/
def saveOrder (o : Order) : List Order → List Order
  | [] => []
  | p :: rest => if p.order_id == o.order_id then o :: rest else p :: saveOrder o rest

/-- `review.save()`: replace the document with the same id. -/
def saveReview (r : Review) : List Review → List Review
  | [] => []
  | s :: rest => if s.review_id == r.review_id then r :: rest else s :: saveReview r rest

/-! ## Order endpoints (`app/api/v1/endpoints/orders.py`) -/

/-- `calculate_order_totals`: subtotal, 8% tax rounded to cents, flat
shipping free at or above 50, zero discount, rounded total. -/
def calculate_order_totals (items : List OrderItem) : OrderSummary :=
  let subtotal := (items.map (fun i => i.total)).sum
  let tax := round2 (subtotal * 0.08)
  let shipping : ℚ := if subtotal ≥ 50 then 0 else 9.99
  let discount : ℚ := 0
  { subtotal := subtotal
    tax := tax
    shipping := shipping
    discount := discount
    total := round2 (subtotal + tax + shipping - discount) }

/-- `OrderItemCreate` request line. -/
structure OrderItemCreate where
  product_id : String
  variant_id : String
  quantity : Int
  deriving Repr, DecidableEq

/-- `OrderCreate` request body (fields `create_order` reads). -/
structure OrderCreate where
  items : List OrderItemCreate
  shipping_address_id : String
  billing_address_id : Option String
  payment_method_id : String
  notes : Option String
  deriving Repr, DecidableEq

/-- The billing-address block of `create_order`: default to the shipping
address, overridden when `billing_address_id` is set and matches. -/
def resolveBilling (user : User) (shipping_address : Address) :
    Option String → Address
  | none => shipping_address
  | some bid =>
    match user.addresses.find? (fun a => a.address_id == bid) with
    | some a => a
    | none => shipping_address

/-- The per-line validation loop of `create_order`: resolve product and
variant, check stock, snapshot the line into an `OrderItem`. -/
def processOrderItems (db : DB) : List OrderItemCreate → Except Err (List OrderItem)
  | [] => .ok []
  | item_data :: rest =>
    match db.getProduct item_data.product_id with
    | none => .error (.notFound ("Product " ++ item_data.product_id ++ " not found"))
    | some product =>
      match product.get_variant_by_id item_data.variant_id with
      | none =>
          .error (.notFound ("Product variant " ++ item_data.variant_id ++ " not found"))
      | some variant =>
        if variant.inventory.quantity < item_data.quantity then
          .error (.insufficientStock product.name variant.inventory.quantity)
        else
          match processOrderItems db rest with
          | .error e => .error e
          | .ok tail =>
              .ok ({ product_id := item_data.product_id
                     variant_id := item_data.variant_id
                     sku := variant.sku
                     name := product.name ++ " - " ++ variant.name
                     price := variant.price
                     quantity := item_data.quantity
                     total := variant.price * (item_data.quantity : ℚ) } :: tail)

/-- Mutate the first variant with the given id: `quantity += dq`,
`reserved += dr`. -/
def adjustVariantList (variant_id : String) (dq dr : Int) :
    List ProductVariant → List ProductVariant
  | [] => []
  | v :: rest =>
    if v.variant_id == variant_id then
      { v with
        inventory :=
          { quantity := v.inventory.quantity + dq
            reserved := v.inventory.reserved + dr } } :: rest
    else v :: adjustVariantList variant_id dq dr rest

/-- One iteration of an inventory loop: fetch the product by id, mutate the
first matching variant, save; a no-op when the product is missing. -/
def adjustProducts (product_id variant_id : String) (dq dr : Int) :
    List Product → List Product
  | [] => []
  | p :: rest =>
    if p.product_id == product_id then
      { p with variants := adjustVariantList variant_id dq dr p.variants } :: rest
    else p :: adjustProducts product_id variant_id dq dr rest

/-- The reservation loop of `create_order`: per line, `quantity -= n`,
`reserved += n`. -/
def reserveStock (items : List OrderItemCreate) (ps : List Product) : List Product :=
  items.foldl
    (fun ps i => adjustProducts i.product_id i.variant_id (-i.quantity) i.quantity ps) ps

/-- The restore loop of the cancellation path: per order item,
`quantity += n`, `reserved -= n`. -/
def restoreStock (items : List OrderItem) (ps : List Product) : List Product :=
  items.foldl
    (fun ps i => adjustProducts i.product_id i.variant_id i.quantity (-i.quantity) ps) ps

/-- The cart-clearing block of `create_order`: clear and save the first cart
of the user, if any. -/
def clearCartOfUser (user_id : String) : List Cart → List Cart
  | [] => []
  | c :: rest =>
    if c.user_id == some user_id then c.clear_cart :: rest
    else c :: clearCartOfUser user_id rest

/-- `create_order` (`POST /orders`).  `now` models `datetime.utcnow()`;
`order_id`, `order_number` and `transaction_id` model the generated
identifiers. -/
def create_order (db : DB) (current_user_id : String) (order_data : OrderCreate)
    (now : Nat) (order_id order_number transaction_id : String) :
    Except Err Order × DB :=
  match db.getUser current_user_id with
  | none => (.error (.notFound "User not found"), db)
  | some user =>
    match user.addresses.find?
        (fun a => a.address_id == order_data.shipping_address_id) with
    | none => (.error (.notFound "Shipping address not found"), db)
    | some shipping_address =>
      let billing_address :=
        resolveBilling user shipping_address order_data.billing_address_id
      match user.payment_methods.find?
          (fun pm => pm.method_id == order_data.payment_method_id) with
      | none => (.error (.notFound "Payment method not found"), db)
      | some payment_method =>
        match processOrderItems db order_data.items with
        | .error e => (.error e, db)
        | .ok order_items =>
          let order_summary := calculate_order_totals order_items
          let payment_info : PaymentInfo :=
            { method := payment_method.type
              status := "pending"
              transaction_id := transaction_id
              amount := order_summary.total
              currency := "USD" }
          let order :=
            Order.add_timeline_entry
              { order_id := order_id
                order_number := order_number
                user_id := current_user_id
                status := "pending"
                items := order_items
                summary := order_summary
                shipping_address := shipping_address
                billing_address := billing_address
                payment := payment_info
                timeline := []
                notes := order_data.notes
                created_at := now }
              "pending" (some "Order placed") now
          let db1 := { db with orders := db.orders ++ [order] }
          let db2 := { db1 with products := reserveStock order_data.items db1.products }
          let db3 := { db2 with carts := clearCartOfUser current_user_id db2.carts }
          let points_earned := pyInt order_summary.total
          let user2 := user.add_loyalty_points points_earned order_summary.total
          let db4 := { db3 with users := saveUser user2 db3.users }
          (.ok order, db4)

/-- `get_user_orders` (`GET /orders`), returning the page of orders.  Line
251 of the source builds the filter as
`Order.user_id == uid and Order.status == status`: Python `and` on a truthy
Beanie expression object evaluates to its right operand, so when a status
filter is supplied the query degenerates to `Order.status == status` and the
user filter is dropped. -/
def get_user_orders (db : DB) (current_user_id : String)
    (status_filter : Option String) (page limit : Nat) : List Order :=
  let filtered :=
    match status_filter with
    | none => db.orders.filter (fun o => o.user_id == current_user_id)
    | some s => db.orders.filter (fun o => o.status == s)
  ((sortByCreatedDesc filtered).drop ((page - 1) * limit)).take limit
where
  /-- `sort(-Order.created_at)`. -/
  insertDesc (o : Order) : List Order → List Order
    | [] => [o]
    | x :: rest =>
      if x.created_at ≥ o.created_at then x :: insertDesc o rest else o :: x :: rest
  sortByCreatedDesc : List Order → List Order
    | [] => []
    | o :: rest => insertDesc o (sortByCreatedDesc rest)

/-- `get_order` (`GET /orders/{order_id}`): read-only. -/
def get_order (db : DB) (order_id current_user_id : String) : Except Err Order :=
  match db.getOrder order_id with
  | none => .error (.notFound "Order not found")
  | some order =>
    if order.user_id ≠ current_user_id then .error (.forbidden "Access denied")
    else .ok order

/-- `get_order_by_number` (`GET /orders/number/{order_number}`): read-only. -/
def get_order_by_number (db : DB) (order_number current_user_id : String) :
    Except Err Order :=
  match db.findOrderByNumber order_number with
  | none => .error (.notFound "Order not found")
  | some order =>
    if order.user_id ≠ current_user_id then .error (.forbidden "Access denied")
    else .ok order

/-- `OrderStatusUpdate` request body (fields the endpoint reads). -/
structure OrderStatusUpdate where
  status : String
  note : Option String
  deriving Repr, DecidableEq

/-- `update_order_status` (`PATCH /orders/{order_id}/status`): owners may
cancel their own pending orders; the cancellation appends a timeline entry,
restores inventory, and saves the order. -/
def update_order_status (db : DB) (order_id : String)
    (status_update : OrderStatusUpdate) (current_user_id : String) (now : Nat) :
    Except Err Order × DB :=
  match db.getOrder order_id with
  | none => (.error (.notFound "Order not found"), db)
  | some order =>
    if order.user_id ≠ current_user_id then
      (.error (.forbidden "Access denied"), db)
    else if status_update.status == "cancelled" && order.status == "pending" then
      let order2 := order.add_timeline_entry status_update.status status_update.note now
      let db1 := { db with products := restoreStock order2.items db.products }
      let db2 := { db1 with orders := saveOrder order2 db1.orders }
      (.ok order2, db2)
    else
      (.error (.badRequest "Invalid status update"), db)

/-! ## Review vote endpoint (`app/api/v1/endpoints/reviews.py`) -/

/-- `ReviewVoteCreate` request body. -/
structure ReviewVoteCreate where
  is_helpful : Bool
  deriving Repr, DecidableEq

/-- The repeat-vote branch: overwrite `is_helpful` on the existing vote
document of this (review, user) pair and save it. -/
def updateVoteFlag (review_id user_id : String) (is_helpful : Bool) :
    List ReviewVote → List ReviewVote
  | [] => []
  | v :: rest =>
    if v.review_id == review_id && v.user_id == user_id then
      { v with is_helpful := is_helpful } :: rest
    else v :: updateVoteFlag review_id user_id is_helpful rest

/-- `vote_on_review` (`POST /reviews/{review_id}/vote`): a first vote inserts
a `ReviewVote` and bumps the review counters; a repeat vote only rewrites the
existing vote document. -/
def vote_on_review (db : DB) (review_id : String) (vote_data : ReviewVoteCreate)
    (current_user_id : String) : Except Err Unit × DB :=
  match db.reviews.find? (fun r => r.review_id == review_id) with
  | none => (.error (.notFound "Review not found"), db)
  | some review =>
    match db.review_votes.find?
        (fun v => v.review_id == review_id && v.user_id == current_user_id) with
    | some _ =>
        (.ok (),
         { db with
           review_votes :=
             updateVoteFlag review_id current_user_id vote_data.is_helpful
               db.review_votes })
    | none =>
        let vote : ReviewVote :=
          { review_id := review_id
            user_id := current_user_id
            is_helpful := vote_data.is_helpful }
        let db1 := { db with review_votes := db.review_votes ++ [vote] }
        let db2 :=
          { db1 with
            reviews := saveReview (review.add_helpful_vote vote_data.is_helpful) db1.reviews }
        (.ok (), db2)

end Ecom

namespace Ecom

/-! ## Inversion of a successful order creation -/

/-- A successful `create_order` returns the order built from the validated
request, and the final database applies exactly the reservation, cart-clear
and loyalty effects to the input database. -/
theorem create_order_ok_inv {db : DB} {uid : String} {data : OrderCreate}
    {now : Nat} {oid onum txn : String} {o : Order} {db' : DB}
    (h : create_order db uid data now oid onum txn = (.ok o, db')) :
    ∃ user order_items,
      db.getUser uid = some user ∧
      processOrderItems db data.items = .ok order_items ∧
      o.items = order_items ∧
      o.summary = calculate_order_totals order_items ∧
      o.user_id = uid ∧
      o.order_id = oid ∧
      o.status = "pending" ∧
      o.timeline = [⟨"pending", now, some "Order placed"⟩] ∧
      db' = { db with
              orders := db.orders ++ [o]
              products := reserveStock data.items db.products
              carts := clearCartOfUser uid db.carts
              users := saveUser
                (user.add_loyalty_points (pyInt o.summary.total) o.summary.total)
                db.users } := by
  unfold create_order at h
  split at h
  · exact absurd h (by simp)
  next user hu =>
    split at h
    · exact absurd h (by simp)
    next sa hsa =>
      split at h
      · exact absurd h (by simp)
      next pm hpm =>
        split at h
        next e hpe => exact absurd h (by simp)
        next items hpi =>
          dsimp only at h
          rw [Prod.mk.injEq, Except.ok.injEq] at h
          obtain ⟨ho, hdb⟩ := h
          subst ho
          subst hdb
          exact ⟨user, items, hu, hpi, rfl, rfl, rfl, rfl, rfl, rfl, rfl⟩

end Ecom

namespace Ecom

/-! ## Concrete data used by the witness theorems -/

/-- A variant priced 30 with 5 in stock. -/
def demoVariant : ProductVariant :=
  { variant_id := "v1", name := "Blue", sku := "SKU1", price := 30,
    inventory := { quantity := 5, reserved := 0 } }

def demoProduct : Product :=
  { product_id := "p1", name := "Widget", variants := [demoVariant] }

def demoUser : User :=
  { user_id := "alice", addresses := [⟨"a1"⟩],
    payment_methods := [⟨"pm1", "credit_card"⟩],
    loyalty := { points := 0, tier := "bronze", lifetime_spent := 0 } }

def demoDB : DB :=
  { users := [demoUser], products := [demoProduct], orders := [], carts := [],
    reviews := [], review_votes := [] }

/-- Request: 2 units of `p1`/`v1` (subtotal 60, so free shipping). -/
def demoOrderData : OrderCreate :=
  { items := [⟨"p1", "v1", 2⟩], shipping_address_id := "a1",
    billing_address_id := none, payment_method_id := "pm1", notes := none }

def demoOrderItem : OrderItem :=
  { product_id := "p1", variant_id := "v1", sku := "SKU1", name := "Widget - Blue",
    price := 30, quantity := 2, total := 60 }

/-- The order `create_order demoDB "alice" demoOrderData 0 "o1" "n1" "t1"` returns:
subtotal 60, tax 4.80, free shipping, total 64.80. -/
def demoOrder : Order :=
  { order_id := "o1", order_number := "n1", user_id := "alice", status := "pending",
    items := [demoOrderItem],
    summary := { subtotal := 60, tax := 24/5, shipping := 0, discount := 0,
                 total := 324/5 },
    shipping_address := ⟨"a1"⟩, billing_address := ⟨"a1"⟩,
    payment := { method := "credit_card", status := "pending",
                 transaction_id := "t1", amount := 324/5, currency := "USD" },
    timeline := [⟨"pending", 0, some "Order placed"⟩],
    notes := none, created_at := 0 }

/-- The database after that order: stock 3, reserved 2, 64 loyalty points. -/
def demoDB1 : DB :=
  { users := [{ user_id := "alice", addresses := [⟨"a1"⟩],
                payment_methods := [⟨"pm1", "credit_card"⟩],
                loyalty := { points := 64, tier := "bronze",
                             lifetime_spent := 324/5 } }],
    products := [{ product_id := "p1", name := "Widget",
                   variants := [{ variant_id := "v1", name := "Blue", sku := "SKU1",
                                  price := 30,
                                  inventory := { quantity := 3, reserved := 2 } }] }],
    orders := [demoOrder], carts := [], reviews := [], review_votes := [] }

/-- Evaluation of `create_order` on the demo data (used to discharge witness
hypotheses; `ℚ` arithmetic does not kernel-reduce, hence `norm_num`). -/
theorem demo_create_run :
    create_order demoDB "alice" demoOrderData 0 "o1" "n1" "t1" =
      (.ok demoOrder, demoDB1) := by
  have hname : "Widget" ++ " - " ++ "Blue" = "Widget - Blue" := by decide
  norm_num [create_order, demoDB, demoUser, demoProduct, demoVariant, demoOrderData,
    demoOrder, demoOrderItem, demoDB1, DB.getUser, DB.findCartByUser, List.find?,
    processOrderItems, DB.getProduct, Product.get_variant_by_id, resolveBilling,
    calculate_order_totals, round2, round_eq, Order.add_timeline_entry,
    reserveStock, adjustProducts, adjustVariantList, clearCartOfUser, saveUser,
    User.add_loyalty_points, loyaltyTierOf, pyInt, hname]

/-! ## C1: order summary arithmetic -/

/-- C1: for every valid order creation via `create_order` with items whose
per-item totals sum to `subtotal`, the returned summary has
`tax = round(subtotal * 0.08, 2)`, `shipping = 0` iff `subtotal ≥ 50` (else
`9.99`), `discount = 0`, and
`total = round(subtotal + tax + shipping - discount, 2)`. -/
theorem claimC1_order_summary_arithmetic {db : DB} {uid : String}
    {data : OrderCreate} {now : Nat} {oid onum txn : String} {o : Order} {db' : DB}
    (h : create_order db uid data now oid onum txn = (.ok o, db'))
    (subtotal : ℚ) (hsub : subtotal = (o.items.map (fun i => i.total)).sum) :
    o.summary.subtotal = subtotal ∧
    o.summary.tax = round2 (subtotal * 0.08) ∧
    o.summary.shipping = (if subtotal ≥ 50 then (0 : ℚ) else 9.99) ∧
    o.summary.discount = 0 ∧
    o.summary.total =
      round2 (subtotal + o.summary.tax + o.summary.shipping - o.summary.discount) := by
  obtain ⟨user, items, hu, hpi, hitems, hsummary, -⟩ := create_order_ok_inv h
  rw [hitems] at hsub
  subst hsub
  rw [hsummary]
  simp [calculate_order_totals]

/-- C1 witness: the demo order (subtotal 60 → tax 4.80, free shipping,
total 64.80). -/
theorem claimC1_order_summary_arithmetic_witness :
    demoOrder.summary.subtotal = 60 ∧
    demoOrder.summary.tax = round2 (60 * 0.08) ∧
    demoOrder.summary.shipping = (if (60 : ℚ) ≥ 50 then (0 : ℚ) else 9.99) ∧
    demoOrder.summary.discount = 0 ∧
    demoOrder.summary.total =
      round2 (60 + demoOrder.summary.tax + demoOrder.summary.shipping -
        demoOrder.summary.discount) := by
  exact claimC1_order_summary_arithmetic demo_create_run 60
    (by norm_num [demoOrder, demoOrderItem])

end Ecom

namespace Ecom

/-! ## C9: cart totals invariant -/

/-- C9: after every cart mutation (`add_item`, `update_item_quantity`,
`remove_item`, `clear_cart`), the cart's totals equal the pure function
`cartTotalsOf` of its current items: `items_count = Σ quantity`,
`subtotal = Σ price·quantity`, `estimated_tax = subtotal * 0.08`,
`estimated_shipping = 0` iff `subtotal ≥ 50` else `9.99`, and
`estimated_total` their sum. -/
theorem claimC9_cart_totals_invariant (c : Cart)
    (hinv : c.totals = cartTotalsOf c.items)
    (product_id variant_id : String) (quantity : Int) (price : ℚ) (now : Nat) :
    ((c.add_item product_id variant_id quantity price now).totals =
       cartTotalsOf (c.add_item product_id variant_id quantity price now).items) ∧
    ((c.update_item_quantity product_id variant_id quantity now).1.totals =
       cartTotalsOf (c.update_item_quantity product_id variant_id quantity now).1.items) ∧
    ((c.remove_item product_id variant_id).1.totals =
       cartTotalsOf (c.remove_item product_id variant_id).1.items) ∧
    (c.clear_cart.totals = cartTotalsOf c.clear_cart.items) := by
  refine ⟨?_, ?_, ?_, ?_⟩
  · unfold Cart.add_item
    split <;> simp [Cart.calculate_totals]
  · unfold Cart.update_item_quantity
    split
    · simp [Cart.calculate_totals]
    · simpa using hinv
  · unfold Cart.remove_item
    split
    · simp [Cart.calculate_totals]
    · simpa using hinv
  · simp [Cart.clear_cart, Cart.calculate_totals]

/-- A cart holding one unit at price 10 with consistent totals
(subtotal 10, tax 0.80, shipping 9.99, total 20.79). -/
def demoCart : Cart :=
  { user_id := some "alice", session_id := none,
    items := [⟨"p1", "v1", 1, 10, 0⟩],
    totals := { items_count := 1, subtotal := 10, estimated_tax := 4/5,
                estimated_shipping := 999/100, estimated_total := 2079/100 } }

/-- C9 witness: the invariant after each mutation of the demo cart. -/
theorem claimC9_cart_totals_invariant_witness :
    ((demoCart.add_item "p2" "v2" 2 5 1).totals =
       cartTotalsOf (demoCart.add_item "p2" "v2" 2 5 1).items) ∧
    ((demoCart.update_item_quantity "p2" "v2" 2 1).1.totals =
       cartTotalsOf (demoCart.update_item_quantity "p2" "v2" 2 1).1.items) ∧
    ((demoCart.remove_item "p2" "v2").1.totals =
       cartTotalsOf (demoCart.remove_item "p2" "v2").1.items) ∧
    (demoCart.clear_cart.totals = cartTotalsOf demoCart.clear_cart.items) :=
  claimC9_cart_totals_invariant demoCart
    (by norm_num [demoCart, cartTotalsOf]) "p2" "v2" 2 5 1

/-! ## C6: loyalty points, lifetime spend and tier -/

/-- The loyalty tier step function as the spec states it: bronze below 1000,
silver from 1000, gold from 2500, platinum from 5000. -/
def loyaltyTierSpec (s : ℚ) : String :=
  if s < 1000 then "bronze"
  else if s < 2500 then "silver"
  else if s < 5000 then "gold"
  else "platinum"

/-- The implemented tier function agrees with the spec's step function. -/
theorem loyaltyTierOf_eq_spec (s : ℚ) : loyaltyTierOf s = loyaltyTierSpec s := by
  unfold loyaltyTierOf loyaltyTierSpec
  split_ifs <;> first | rfl | linarith

/-- Replacing a user's document keeps it findable under the same key. -/
theorem find_saveUser {users : List User} {uid : String} {u0 : User}
    (h : users.find? (fun v => v.user_id == uid) = some u0)
    (u : User) (hid : u.user_id = u0.user_id) :
    (saveUser u users).find? (fun v => v.user_id == uid) = some u := by
  have hu0 : u0.user_id = uid := by simpa using List.find?_some h
  induction users with
  | nil => simp at h
  | cons v rest ih =>
    by_cases hv : v.user_id = uid
    · have hveq : v = u0 := by
        rw [List.find?_cons_of_pos _ (by simpa using hv)] at h
        exact Option.some.inj h
      have h1 : (v.user_id == u.user_id) = true := by
        rw [hveq, hid]; simp
      have h2 : (u.user_id == uid) = true := by
        rw [hid, hu0]; simp
      simp [saveUser, h1, List.find?_cons, h2]
    · have huid : u.user_id = uid := by rw [hid, hu0]
      have h2 : (v.user_id == u.user_id) = false := by
        rw [huid]
        exact beq_eq_false_iff_ne.mpr hv
      rw [List.find?_cons_of_neg _ (by simpa using hv)] at h
      simpa [saveUser, h2, hv] using ih h

/-- C6: after every successful `create_order` with summary total `T`, the
user's points increase by `⌊T⌋`, `lifetime_spent` increases by `T`, the tier
is re-derived from the new `lifetime_spent`, and the tier function is exactly
the spec's step function (so 1000, 2500, 5000 map to silver, gold, platinum
and 999.99 stays bronze). -/
theorem claimC6_loyalty_update {db : DB} {uid : String} {data : OrderCreate}
    {now : Nat} {oid onum txn : String} {o : Order} {db' : DB}
    (h : create_order db uid data now oid onum txn = (.ok o, db'))
    {u : User} (hu : db.getUser uid = some u)
    (hT : 0 ≤ o.summary.total) :
    (∃ u', db'.getUser uid = some u' ∧
      u'.loyalty.points = u.loyalty.points + ⌊o.summary.total⌋ ∧
      u'.loyalty.lifetime_spent = u.loyalty.lifetime_spent + o.summary.total ∧
      u'.loyalty.tier = loyaltyTierOf u'.loyalty.lifetime_spent) ∧
    (∀ s : ℚ, loyaltyTierOf s = loyaltyTierSpec s) := by
  obtain ⟨user, items, hu', hpi, hitems, hsummary, hUid, hOid, hStatus, hTl, hdb⟩ :=
    create_order_ok_inv h
  rw [hu] at hu'
  have heq : user = u := (Option.some.inj hu').symm
  rw [heq] at hdb
  subst hdb
  refine ⟨⟨u.add_loyalty_points (pyInt o.summary.total) o.summary.total, ?_, ?_, ?_, ?_⟩,
    loyaltyTierOf_eq_spec⟩
  · have hfind : db.users.find? (fun v => v.user_id == uid) = some u := by
      simpa [DB.getUser] using hu
    simpa [DB.getUser] using
      find_saveUser hfind (u.add_loyalty_points (pyInt o.summary.total) o.summary.total)
        (by simp [User.add_loyalty_points])
  · simp [User.add_loyalty_points, pyInt, hT]
  · simp [User.add_loyalty_points]
  · simp [User.add_loyalty_points]

/-- C6 witness: the demo order (total 64.80) awards 64 points on a fresh
loyalty record and re-derives the tier. -/
theorem claimC6_loyalty_update_witness :
    (∃ u', demoDB1.getUser "alice" = some u' ∧
      u'.loyalty.points = demoUser.loyalty.points + ⌊demoOrder.summary.total⌋ ∧
      u'.loyalty.lifetime_spent =
        demoUser.loyalty.lifetime_spent + demoOrder.summary.total ∧
      u'.loyalty.tier = loyaltyTierOf u'.loyalty.lifetime_spent) ∧
    (∀ s : ℚ, loyaltyTierOf s = loyaltyTierSpec s) :=
  claimC6_loyalty_update demo_create_run rfl (by norm_num [demoOrder])

end Ecom

namespace Ecom

/-! ## C4: cancellation failure modes leave state unchanged -/

/-- C4: `update_order_status` fails with 403 "Access denied" for a non-owner,
fails with 400 "Invalid status update" unless the order is `pending` and the
requested status is `cancelled`, and every failure returns the database
unchanged (order, timeline, status and inventories untouched). -/
theorem claimC4_cancel_failures (db : DB) (order_id : String)
    (status_update : OrderStatusUpdate) (current_user_id : String) (now : Nat) :
    (∀ order, db.getOrder order_id = some order →
      order.user_id ≠ current_user_id →
      update_order_status db order_id status_update current_user_id now =
        (.error (.forbidden "Access denied"), db)) ∧
    (∀ order, db.getOrder order_id = some order →
      order.user_id = current_user_id →
      ¬(status_update.status = "cancelled" ∧ order.status = "pending") →
      update_order_status db order_id status_update current_user_id now =
        (.error (.badRequest "Invalid status update"), db)) ∧
    (∀ e db', update_order_status db order_id status_update current_user_id now =
        (.error e, db') → db' = db) := by
  refine ⟨?_, ?_, ?_⟩
  · intro order ho hne
    simp [update_order_status, ho, hne]
  · intro order ho heq hnot
    have hcond :
        (status_update.status == "cancelled" && order.status == "pending") = false := by
      by_cases h1 : status_update.status = "cancelled"
      · by_cases h2 : order.status = "pending"
        · exact absurd ⟨h1, h2⟩ hnot
        · simp [h1, h2]
      · simp [h1]
    simp [update_order_status, ho, heq, hcond]
  · intro e db' h
    unfold update_order_status at h
    split at h
    · exact ((Prod.mk.injEq _ _ _ _).mp h).2.symm
    · split at h
      · exact ((Prod.mk.injEq _ _ _ _).mp h).2.symm
      · split at h
        · simp at h
        · exact ((Prod.mk.injEq _ _ _ _).mp h).2.symm

/-- C4 witness: a non-owner's cancellation attempt on the demo order fails
with 403 and leaves the database unchanged. -/
theorem claimC4_cancel_failures_witness :
    update_order_status demoDB1 "o1" ⟨"cancelled", none⟩ "bob" 5 =
      (.error (.forbidden "Access denied"), demoDB1) :=
  (claimC4_cancel_failures demoDB1 "o1" ⟨"cancelled", none⟩ "bob" 5).1
    demoOrder rfl (by decide)

/-! ## C5: order-creation failures have no side effects -/

/-- An `insufficientStock` error from the validation loop reports the actual
inventory of the offending line's variant. -/
theorem processOrderItems_insufficient {db : DB} {items : List OrderItemCreate}
    {productName : String} {available : Int}
    (h : processOrderItems db items = .error (.insufficientStock productName available)) :
    ∃ i ∈ items, ∃ p v,
      db.getProduct i.product_id = some p ∧ productName = p.name ∧
      p.get_variant_by_id i.variant_id = some v ∧
      available = v.inventory.quantity ∧
      v.inventory.quantity < i.quantity := by
  induction items with
  | nil => simp [processOrderItems] at h
  | cons i rest ih =>
    unfold processOrderItems at h
    split at h
    · simp at h
    next p hp =>
      split at h
      · simp at h
      next v hv =>
        split at h
        next hlt =>
          simp only [Except.error.injEq, Err.insufficientStock.injEq] at h
          obtain ⟨hn, ha⟩ := h
          exact ⟨i, by simp, p, v, hp, hn.symm, hv, ha.symm, hlt⟩
        next hge =>
          split at h
          next e he =>
            obtain rfl : e = .insufficientStock productName available :=
              Except.error.inj h
            obtain ⟨i', hi', rest'⟩ := ih he
            exact ⟨i', List.mem_cons_of_mem _ hi', rest'⟩
          · simp at h

/-- A failing `create_order` leaves the database unchanged, and a stock error
comes from the validation loop. -/
theorem create_order_error_inv {db : DB} {uid : String} {data : OrderCreate}
    {now : Nat} {oid onum txn : String} {e : Err} {db' : DB}
    (h : create_order db uid data now oid onum txn = (.error e, db')) :
    db' = db ∧ (∀ productName available,
      e = .insufficientStock productName available →
      processOrderItems db data.items = .error e) := by
  unfold create_order at h
  split at h
  · obtain ⟨h1, h2⟩ := (Prod.mk.injEq _ _ _ _).mp h
    exact ⟨h2.symm, fun pn av he =>
      absurd ((Except.error.inj h1).trans he) (by simp)⟩
  · split at h
    · obtain ⟨h1, h2⟩ := (Prod.mk.injEq _ _ _ _).mp h
      exact ⟨h2.symm, fun pn av he =>
        absurd ((Except.error.inj h1).trans he) (by simp)⟩
    · split at h
      · obtain ⟨h1, h2⟩ := (Prod.mk.injEq _ _ _ _).mp h
        exact ⟨h2.symm, fun pn av he =>
          absurd ((Except.error.inj h1).trans he) (by simp)⟩
      · split at h
        next e' he' =>
          obtain ⟨h1, h2⟩ := (Prod.mk.injEq _ _ _ _).mp h
          obtain rfl : e' = e := Except.error.inj h1
          exact ⟨h2.symm, fun pn av he => he'⟩
        · simp at h

/-- C5: every failing `create_order` (missing user / address / payment method
/ product / variant, or insufficient stock) raises before any state is
persisted — the database is returned unchanged, so no order is stored, no
inventory changes, no cart is cleared, no loyalty points are awarded — and an
insufficient-stock error reports the offending variant's actual available
quantity. -/
theorem claimC5_create_order_failure_no_side_effects :
    (∀ db uid data now oid onum txn e db',
       create_order db uid data now oid onum txn = (.error e, db') →
       db' = db) ∧
    (∀ db uid data now oid onum txn productName available db',
       create_order db uid data now oid onum txn =
         (.error (.insufficientStock productName available), db') →
       ∃ i ∈ data.items, ∃ p v,
         db.getProduct i.product_id = some p ∧ productName = p.name ∧
         p.get_variant_by_id i.variant_id = some v ∧
         available = v.inventory.quantity ∧
         v.inventory.quantity < i.quantity) := by
  refine ⟨?_, ?_⟩
  · intro db uid data now oid onum txn e db' h
    exact (create_order_error_inv h).1
  · intro db uid data now oid onum txn productName available db' h
    exact processOrderItems_insufficient ((create_order_error_inv h).2 _ _ rfl)

/-- Request for 10 units when the demo variant has only 5 in stock. -/
def demoBadOrderData : OrderCreate :=
  { items := [⟨"p1", "v1", 10⟩], shipping_address_id := "a1",
    billing_address_id := none, payment_method_id := "pm1", notes := none }

/-- C5 witness: the insufficient-stock failure on the demo data reports the
actual stock (5) and leaves the database unchanged. -/
theorem claimC5_create_order_failure_no_side_effects_witness :
    ((create_order demoDB "alice" demoBadOrderData 0 "o1" "n1" "t1").2 = demoDB) ∧
    ∃ i ∈ demoBadOrderData.items, ∃ p v,
      demoDB.getProduct i.product_id = some p ∧ ("Widget" : String) = p.name ∧
      p.get_variant_by_id i.variant_id = some v ∧
      (5 : Int) = v.inventory.quantity ∧
      v.inventory.quantity < i.quantity :=
  ⟨congrArg Prod.snd
    (rfl :
      create_order demoDB "alice" demoBadOrderData 0 "o1" "n1" "t1" =
        (.error (.insufficientStock "Widget" 5), demoDB)),
   claimC5_create_order_failure_no_side_effects.2 demoDB "alice" demoBadOrderData
     0 "o1" "n1" "t1" "Widget" 5 demoDB rfl⟩

end Ecom

namespace Ecom

/-! ## C8: what a non-owner observes from the single-order reads -/

/-- C8 counterexample: the observable response to a non-owner differs between
"order exists, owned by someone else" (403 "Access denied") and "order does
not exist" (404 "Order not found"), for both single-order reads — so a
non-owner can distinguish the two cases. -/
theorem claimC8_counterexample :
    get_order demoDB1 "o1" "bob" = .error (.forbidden "Access denied") ∧
    get_order demoDB "o1" "bob" = .error (.notFound "Order not found") ∧
    get_order demoDB1 "o1" "bob" ≠ get_order demoDB "o1" "bob" ∧
    get_order_by_number demoDB1 "n1" "bob" = .error (.forbidden "Access denied") ∧
    get_order_by_number demoDB "n1" "bob" = .error (.notFound "Order not found") ∧
    get_order_by_number demoDB1 "n1" "bob" ≠ get_order_by_number demoDB "n1" "bob" ∧
    (Err.forbidden "Access denied").statusCode = 403 ∧
    (Err.notFound "Order not found").statusCode = 404 := by
  have h1 : get_order demoDB1 "o1" "bob" = .error (.forbidden "Access denied") := rfl
  have h2 : get_order demoDB "o1" "bob" = .error (.notFound "Order not found") := rfl
  have h3 : get_order_by_number demoDB1 "n1" "bob" =
      .error (.forbidden "Access denied") := rfl
  have h4 : get_order_by_number demoDB "n1" "bob" =
      .error (.notFound "Order not found") := rfl
  refine ⟨h1, h2, ?_, h3, h4, ?_, rfl, rfl⟩
  · rw [h1, h2]
    simp
  · rw [h3, h4]
    simp

/-- C8 amended: a non-owner never receives order data, but the error reveals
existence: both reads return 404 "Order not found" when no such order exists
and 403 "Access denied" when it exists with a different owner. -/
theorem claimC8_amended_non_owner_responses (db : DB) (oid onum uid : String) :
    (db.getOrder oid = none →
      get_order db oid uid = .error (.notFound "Order not found")) ∧
    (∀ o, db.getOrder oid = some o → o.user_id ≠ uid →
      get_order db oid uid = .error (.forbidden "Access denied")) ∧
    (db.findOrderByNumber onum = none →
      get_order_by_number db onum uid = .error (.notFound "Order not found")) ∧
    (∀ o, db.findOrderByNumber onum = some o → o.user_id ≠ uid →
      get_order_by_number db onum uid = .error (.forbidden "Access denied")) := by
  refine ⟨?_, ?_, ?_, ?_⟩
  · intro h
    simp [get_order, h]
  · intro o h hne
    simp [get_order, h, hne]
  · intro h
    simp [get_order_by_number, h]
  · intro o h hne
    simp [get_order_by_number, h, hne]

/-- C8 amended witness: the demo order is denied to a non-owner with 403, and
a missing order returns 404. -/
theorem claimC8_amended_non_owner_responses_witness :
    get_order demoDB1 "o1" "bob" = .error (.forbidden "Access denied") ∧
    get_order demoDB "o1" "bob" = .error (.notFound "Order not found") :=
  ⟨(claimC8_amended_non_owner_responses demoDB1 "o1" "n1" "bob").2.1
      demoOrder rfl (by decide),
   (claimC8_amended_non_owner_responses demoDB "o1" "n1" "bob").1 rfl⟩

/-! ## C7: the order list and the dropped user filter -/

/-- C7: at line 251 of `endpoints/orders.py` the filter is built with Python
`and`, which evaluates to its right operand, so a status-filtered listing
drops the user filter entirely: "bob" listing orders with `status=pending`
receives "alice"'s order, while the unfiltered listing correctly returns
nothing for "bob".  This exhibits the code bug against the claim that the
list never contains another user's orders. -/
theorem claimC7_status_filter_leaks_other_users_orders :
    get_user_orders demoDB1 "bob" (some "pending") 1 20 = [demoOrder] ∧
    demoOrder.user_id = "alice" ∧
    ("alice" : String) ≠ "bob" ∧
    get_user_orders demoDB1 "bob" none 1 20 = [] := by
  refine ⟨rfl, rfl, by decide, rfl⟩

end Ecom

namespace Ecom

/-! ## Inventory reasoning: effect of the reserve/restore loops on a variant -/

/-- The variant a client observes: first product with the given id, then its
first variant with the given id. -/
def variantOf (ps : List Product) (product_id variant_id : String) :
    Option ProductVariant :=
  (ps.find? (fun p => p.product_id == product_id)).bind
    (fun p => p.get_variant_by_id variant_id)

/-- Shift a variant's inventory by `dq`/`dr`. -/
def ProductVariant.adjustInventory (v : ProductVariant) (dq dr : Int) :
    ProductVariant :=
  { v with
    inventory :=
      { quantity := v.inventory.quantity + dq
        reserved := v.inventory.reserved + dr } }

/-- `adjustVariantList` shifts exactly the first variant with the given id. -/
theorem find_adjustVariantList_self (variant_id : String) (dq dr : Int)
    (vs : List ProductVariant) :
    (adjustVariantList variant_id dq dr vs).find?
        (fun v => v.variant_id == variant_id) =
      (vs.find? (fun v => v.variant_id == variant_id)).map
        (fun v => v.adjustInventory dq dr) := by
  induction vs with
  | nil => rfl
  | cons v rest ih =>
    by_cases hv : v.variant_id = variant_id
    · have hvt : (v.variant_id == variant_id) = true := by simp [hv]
      simp [adjustVariantList, hvt, List.find?_cons, ProductVariant.adjustInventory]
    · have hbeq : (v.variant_id == variant_id) = false := beq_eq_false_iff_ne.mpr hv
      simp [adjustVariantList, hbeq, List.find?_cons, ih]

/-- `adjustVariantList` on one id leaves lookups of any other id unchanged. -/
theorem find_adjustVariantList_other {variant_id other : String}
    (hne : variant_id ≠ other) (dq dr : Int) (vs : List ProductVariant) :
    (adjustVariantList variant_id dq dr vs).find? (fun v => v.variant_id == other) =
      vs.find? (fun v => v.variant_id == other) := by
  induction vs with
  | nil => rfl
  | cons v rest ih =>
    by_cases hv : v.variant_id = variant_id
    · have hvt : (v.variant_id == variant_id) = true := by simp [hv]
      have hno : (v.variant_id == other) = false :=
        beq_eq_false_iff_ne.mpr (hv ▸ hne)
      simp [adjustVariantList, hvt, List.find?_cons, hno]
    · have hbeq : (v.variant_id == variant_id) = false := beq_eq_false_iff_ne.mpr hv
      by_cases ho : v.variant_id = other
      · have hbo : (v.variant_id == other) = true := by simp [ho]
        simp [adjustVariantList, hbeq, List.find?_cons, hbo]
      · have hno : (v.variant_id == other) = false := beq_eq_false_iff_ne.mpr ho
        simp [adjustVariantList, hbeq, List.find?_cons, hno, ih]

/-- `adjustProducts` shifts exactly the observed variant of its target. -/
theorem variantOf_adjustProducts_self (product_id variant_id : String)
    (dq dr : Int) (ps : List Product) :
    variantOf (adjustProducts product_id variant_id dq dr ps) product_id variant_id =
      (variantOf ps product_id variant_id).map (fun v => v.adjustInventory dq dr) := by
  induction ps with
  | nil => rfl
  | cons p rest ih =>
    by_cases hp : p.product_id = product_id
    · have hpt : (p.product_id == product_id) = true := by simp [hp]
      simp [adjustProducts, hpt, variantOf, List.find?_cons,
        Product.get_variant_by_id, find_adjustVariantList_self]
    · have hbeq : (p.product_id == product_id) = false := beq_eq_false_iff_ne.mpr hp
      simpa [adjustProducts, hbeq, variantOf, List.find?_cons] using ih

/-- `adjustProducts` leaves every other (product, variant) observation
unchanged. -/
theorem variantOf_adjustProducts_other {product_id variant_id pid vid : String}
    (hne : ¬(product_id = pid ∧ variant_id = vid)) (dq dr : Int)
    (ps : List Product) :
    variantOf (adjustProducts product_id variant_id dq dr ps) pid vid =
      variantOf ps pid vid := by
  induction ps with
  | nil => rfl
  | cons p rest ih =>
    by_cases hp : p.product_id = product_id
    · have hpt : (p.product_id == product_id) = true := by simp [hp]
      by_cases hpid : p.product_id = pid
      · have hpidt : (p.product_id == pid) = true := by simp [hpid]
        have hpp : product_id = pid := by rw [← hp, hpid]
        have hvv : variant_id ≠ vid := fun hc => hne ⟨hpp, hc⟩
        simp [adjustProducts, hpt, variantOf, List.find?_cons, hpidt,
          Product.get_variant_by_id, find_adjustVariantList_other hvv]
      · have hbeq : (p.product_id == pid) = false := beq_eq_false_iff_ne.mpr hpid
        simp [adjustProducts, hpt, variantOf, List.find?_cons, hbeq]
    · have hbeq : (p.product_id == product_id) = false := beq_eq_false_iff_ne.mpr hp
      by_cases hpid : p.product_id = pid
      · have hpidt : (p.product_id == pid) = true := by simp [hpid]
        simp [adjustProducts, hbeq, variantOf, List.find?_cons, hpidt]
      · have hbeq2 : (p.product_id == pid) = false := beq_eq_false_iff_ne.mpr hpid
        simpa [adjustProducts, hbeq, variantOf, List.find?_cons, hbeq2] using ih

end Ecom

namespace Ecom

/-- The inventory loops as folds of elementary adjustments. -/
def applyAdjustments : List (String × String × Int × Int) → List Product → List Product
  | [], ps => ps
  | a :: rest, ps => applyAdjustments rest (adjustProducts a.1 a.2.1 a.2.2.1 a.2.2.2 ps)

/-- The adjustment one reservation-loop iteration performs. -/
def reserveAdj (i : OrderItemCreate) : String × String × Int × Int :=
  (i.product_id, i.variant_id, -i.quantity, i.quantity)

/-- The adjustment one restore-loop iteration performs. -/
def restoreAdj (i : OrderItem) : String × String × Int × Int :=
  (i.product_id, i.variant_id, i.quantity, -i.quantity)

theorem reserveStock_eq_applyAdjustments (items : List OrderItemCreate)
    (ps : List Product) :
    reserveStock items ps = applyAdjustments (items.map reserveAdj) ps := by
  induction items generalizing ps with
  | nil => rfl
  | cons i rest ih =>
    simp only [reserveStock, List.foldl_cons, List.map_cons, applyAdjustments]
    exact ih _

theorem restoreStock_eq_applyAdjustments (items : List OrderItem)
    (ps : List Product) :
    restoreStock items ps = applyAdjustments (items.map restoreAdj) ps := by
  induction items generalizing ps with
  | nil => rfl
  | cons i rest ih =>
    simp only [restoreStock, List.foldl_cons, List.map_cons, applyAdjustments]
    exact ih _

/-- A fold of adjustments none of which targets `(pid, vid)` leaves that
observation unchanged. -/
theorem variantOf_applyAdjustments_frame (pid vid : String) :
    ∀ (adjs : List (String × String × Int × Int)) (ps : List Product),
      adjs.filter (fun a => a.1 == pid && a.2.1 == vid) = [] →
      variantOf (applyAdjustments adjs ps) pid vid = variantOf ps pid vid := by
  intro adjs
  induction adjs with
  | nil => intro ps _; rfl
  | cons a rest ih =>
    intro ps hf
    rw [List.filter_cons] at hf
    split at hf
    · exact absurd hf (by simp)
    next hc =>
      have hne : ¬(a.1 = pid ∧ a.2.1 = vid) := fun hand => hc (by simp [hand.1, hand.2])
      simp only [applyAdjustments]
      rw [ih _ hf]
      exact variantOf_adjustProducts_other hne _ _ _

/-- A fold of adjustments exactly one of which targets `(pid, vid)` shifts
that observation by the one adjustment. -/
theorem variantOf_applyAdjustments_single (pid vid : String) (dq dr : Int) :
    ∀ (adjs : List (String × String × Int × Int)) (ps : List Product),
      adjs.filter (fun a => a.1 == pid && a.2.1 == vid) = [(pid, vid, dq, dr)] →
      variantOf (applyAdjustments adjs ps) pid vid =
        (variantOf ps pid vid).map (fun v => v.adjustInventory dq dr) := by
  intro adjs
  induction adjs with
  | nil => intro ps hf; simp at hf
  | cons a rest ih =>
    intro ps hf
    rw [List.filter_cons] at hf
    split at hf
    next hc =>
      obtain ⟨ha, hrest⟩ := List.cons_eq_cons.mp hf
      subst ha
      simp only [applyAdjustments]
      rw [variantOf_applyAdjustments_frame pid vid rest _ hrest]
      exact variantOf_adjustProducts_self pid vid dq dr ps
    next hc =>
      have hne : ¬(a.1 = pid ∧ a.2.1 = vid) := fun hand => hc (by simp [hand.1, hand.2])
      simp only [applyAdjustments]
      rw [ih _ hf]
      rw [variantOf_adjustProducts_other hne]

/-- The order items a successful validation loop builds carry exactly the
requested (product, variant, quantity) triples, in order. -/
theorem processOrderItems_keys {db : DB} {l : List OrderItemCreate}
    {out : List OrderItem} (h : processOrderItems db l = .ok out) :
    out.map (fun i => (i.product_id, i.variant_id, i.quantity)) =
      l.map (fun d => (d.product_id, d.variant_id, d.quantity)) := by
  induction l generalizing out with
  | nil =>
    obtain rfl : ([] : List OrderItem) = out := Except.ok.inj h
    rfl
  | cons d rest ih =>
    unfold processOrderItems at h
    split at h
    · simp at h
    next p hp =>
      split at h
      · simp at h
      next v hv =>
        split at h
        next hlt => simp at h
        next hge =>
          split at h
          next e he => simp at h
          next tail htail =>
            obtain rfl := (Except.ok.inj h).symm
            simp only [List.map_cons]
            rw [ih htail]

/-! ## C2: a successful order reserves stock -/

/-- C2: after a successful `create_order` whose request contains exactly one
line for `(pid, vid)`, ordering `n` units, the observed variant's inventory
satisfies `new.quantity = old.quantity - n` and
`new.reserved = old.reserved + n`. -/
theorem claimC2_create_order_reserves_stock {db : DB} {uid : String}
    {data : OrderCreate} {now : Nat} {oid onum txn : String} {o : Order} {db' : DB}
    (h : create_order db uid data now oid onum txn = (.ok o, db'))
    (pid vid : String) (n : Int)
    (hline : data.items.filter
        (fun i => i.product_id == pid && i.variant_id == vid) = [⟨pid, vid, n⟩])
    {v : ProductVariant}
    (hv : variantOf db.products pid vid = some v) :
    variantOf db'.products pid vid = some
      { v with
        inventory := { quantity := v.inventory.quantity - n
                       reserved := v.inventory.reserved + n } } := by
  obtain ⟨user, items, -, -, -, -, -, -, -, -, hdb⟩ := create_order_ok_inv h
  have hprod : db'.products = reserveStock data.items db.products := by rw [hdb]
  rw [hprod, reserveStock_eq_applyAdjustments]
  have hpred : data.items.filter
      ((fun a : String × String × Int × Int => a.1 == pid && a.2.1 == vid) ∘
        reserveAdj) = [⟨pid, vid, n⟩] := hline
  have hfadj : (data.items.map reserveAdj).filter
      (fun a => a.1 == pid && a.2.1 == vid) = [(pid, vid, -n, n)] := by
    rw [List.filter_map, hpred]
    rfl
  rw [variantOf_applyAdjustments_single pid vid (-n) n _ _ hfadj, hv]
  simp [ProductVariant.adjustInventory, sub_eq_add_neg]

/-- C2 witness: the demo order of 2 units takes the variant from
(quantity 5, reserved 0) to (quantity 3, reserved 2). -/
theorem claimC2_create_order_reserves_stock_witness :
    variantOf demoDB1.products "p1" "v1" = some
      { demoVariant with
        inventory := { quantity := demoVariant.inventory.quantity - 2
                       reserved := demoVariant.inventory.reserved + 2 } } :=
  claimC2_create_order_reserves_stock demo_create_run "p1" "v1" 2 rfl rfl

end Ecom

namespace Ecom

/-! ## C3: cancellation is the inverse of reservation -/

/-- Elementary inventory shifts on a variant list commute. -/
theorem adjustVariantList_comm (v1 : String) (a b : Int) (v2 : String)
    (c d : Int) (vs : List ProductVariant) :
    adjustVariantList v1 a b (adjustVariantList v2 c d vs) =
      adjustVariantList v2 c d (adjustVariantList v1 a b vs) := by
  induction vs with
  | nil => rfl
  | cons v rest ih =>
    by_cases h1 : v.variant_id = v1 <;> by_cases h2 : v.variant_id = v2
    · have ht1 : (v.variant_id == v1) = true := by simp [h1]
      have ht2 : (v.variant_id == v2) = true := by simp [h2]
      simp [adjustVariantList, ht1, ht2]
      omega
    · have ht1 : (v.variant_id == v1) = true := by simp [h1]
      have hf2 : (v.variant_id == v2) = false := beq_eq_false_iff_ne.mpr h2
      simp [adjustVariantList, ht1, hf2]
    · have hf1 : (v.variant_id == v1) = false := beq_eq_false_iff_ne.mpr h1
      have ht2 : (v.variant_id == v2) = true := by simp [h2]
      simp [adjustVariantList, hf1, ht2]
    · have hf1 : (v.variant_id == v1) = false := beq_eq_false_iff_ne.mpr h1
      have hf2 : (v.variant_id == v2) = false := beq_eq_false_iff_ne.mpr h2
      simp [adjustVariantList, hf1, hf2, ih]

/-- Elementary inventory shifts on the product list commute. -/
theorem adjustProducts_comm (p1 v1 : String) (a b : Int) (p2 v2 : String)
    (c d : Int) (ps : List Product) :
    adjustProducts p1 v1 a b (adjustProducts p2 v2 c d ps) =
      adjustProducts p2 v2 c d (adjustProducts p1 v1 a b ps) := by
  induction ps with
  | nil => rfl
  | cons p rest ih =>
    by_cases h1 : p.product_id = p1 <;> by_cases h2 : p.product_id = p2
    · have ht1 : (p.product_id == p1) = true := by simp [h1]
      have ht2 : (p.product_id == p2) = true := by simp [h2]
      simp [adjustProducts, ht1, ht2, adjustVariantList_comm]
    · have ht1 : (p.product_id == p1) = true := by simp [h1]
      have hf2 : (p.product_id == p2) = false := beq_eq_false_iff_ne.mpr h2
      simp [adjustProducts, ht1, hf2]
    · have hf1 : (p.product_id == p1) = false := beq_eq_false_iff_ne.mpr h1
      have ht2 : (p.product_id == p2) = true := by simp [h2]
      simp [adjustProducts, hf1, ht2]
    · have hf1 : (p.product_id == p1) = false := beq_eq_false_iff_ne.mpr h1
      have hf2 : (p.product_id == p2) = false := beq_eq_false_iff_ne.mpr h2
      simp [adjustProducts, hf1, hf2, ih]

/-- The opposite shift undoes a shift on a variant list. -/
theorem adjustVariantList_cancel (vid : String) (dq dr : Int)
    (vs : List ProductVariant) :
    adjustVariantList vid (-dq) (-dr) (adjustVariantList vid dq dr vs) = vs := by
  induction vs with
  | nil => rfl
  | cons v rest ih =>
    by_cases h : v.variant_id = vid
    · have ht : (v.variant_id == vid) = true := by simp [h]
      simp [adjustVariantList, ht, add_neg_cancel_right]
    · have hf : (v.variant_id == vid) = false := beq_eq_false_iff_ne.mpr h
      simp [adjustVariantList, hf, ih]

/-- The opposite shift undoes a shift on the product list. -/
theorem adjustProducts_cancel (pid vid : String) (dq dr : Int)
    (ps : List Product) :
    adjustProducts pid vid (-dq) (-dr) (adjustProducts pid vid dq dr ps) = ps := by
  induction ps with
  | nil => rfl
  | cons p rest ih =>
    by_cases h : p.product_id = pid
    · have ht : (p.product_id == pid) = true := by simp [h]
      simp [adjustProducts, ht, adjustVariantList_cancel]
    · have hf : (p.product_id == pid) = false := beq_eq_false_iff_ne.mpr h
      simp [adjustProducts, hf, ih]

/-- An elementary shift commutes with a whole fold of shifts. -/
theorem adjustProducts_applyAdjustments_comm (p1 v1 : String) (a b : Int) :
    ∀ (adjs : List (String × String × Int × Int)) (ps : List Product),
      adjustProducts p1 v1 a b (applyAdjustments adjs ps) =
        applyAdjustments adjs (adjustProducts p1 v1 a b ps) := by
  intro adjs
  induction adjs with
  | nil => intro ps; rfl
  | cons x rest ih =>
    intro ps
    simp only [applyAdjustments]
    rw [ih, adjustProducts_comm]

/-- The negation of an adjustment. -/
def negAdj (a : String × String × Int × Int) : String × String × Int × Int :=
  (a.1, a.2.1, -a.2.2.1, -a.2.2.2)

/-- Applying the negated adjustments undoes the adjustments. -/
theorem applyAdjustments_neg (adjs : List (String × String × Int × Int))
    (ps : List Product) :
    applyAdjustments (adjs.map negAdj) (applyAdjustments adjs ps) = ps := by
  induction adjs generalizing ps with
  | nil => rfl
  | cons a rest ih =>
    obtain ⟨p, v, dq, dr⟩ := a
    simp only [List.map_cons, applyAdjustments, negAdj]
    rw [adjustProducts_applyAdjustments_comm]
    rw [adjustProducts_cancel]
    exact ih ps

/-- Restoring the snapshot items of a validated order undoes the reservation
of its request lines. -/
theorem restore_reserve_roundtrip {l : List OrderItemCreate} {out : List OrderItem}
    (hkeys : out.map (fun i => (i.product_id, i.variant_id, i.quantity)) =
      l.map (fun d => (d.product_id, d.variant_id, d.quantity)))
    (ps : List Product) :
    restoreStock out (reserveStock l ps) = ps := by
  rw [reserveStock_eq_applyAdjustments, restoreStock_eq_applyAdjustments]
  have hmaps : out.map restoreAdj = (l.map reserveAdj).map negAdj := by
    rw [List.map_map]
    have h1 : out.map restoreAdj =
        (out.map (fun i => (i.product_id, i.variant_id, i.quantity))).map
          (fun t : String × String × Int => (t.1, t.2.1, t.2.2, -t.2.2)) := by
      rw [List.map_map]
      rfl
    have h2 : l.map (negAdj ∘ reserveAdj) =
        (l.map (fun d => (d.product_id, d.variant_id, d.quantity))).map
          (fun t : String × String × Int => (t.1, t.2.1, t.2.2, -t.2.2)) := by
      rw [List.map_map]
      refine List.map_congr_left ?_
      intro d _
      simp [negAdj, reserveAdj]
    rw [h1, h2, hkeys]
  rw [hmaps]
  exact applyAdjustments_neg _ _

/-- `find?` skips a prefix in which it finds nothing. -/
theorem find?_append_left_none {α : Type} (p : α → Bool) {l1 : List α}
    (h : l1.find? p = none) (l2 : List α) :
    (l1 ++ l2).find? p = l2.find? p := by
  induction l1 with
  | nil => rfl
  | cons a l ih =>
    rw [List.find?_eq_none] at h
    have ha : ¬ p a = true := h a (by simp)
    rw [List.cons_append, List.find?_cons_of_neg _ ha]
    refine ih ?_
    rw [List.find?_eq_none]
    intro x hx
    exact h x (by simp [hx])

end Ecom

namespace Ecom

/-- C3: cancelling (by its owner, requesting status "cancelled") an order just
created from a `pending` state succeeds, appends a "cancelled" timeline entry,
sets the order status to "cancelled", and restores every touched variant's
inventory exactly to its pre-order values: `create_order` followed by the
cancellation is a round-trip on the product collection
(`quantity += item.quantity` and `reserved -= item.quantity` per item undo
the reservation). -/
theorem claimC3_cancel_restores_inventory {db : DB} {uid : String}
    {data : OrderCreate} {now : Nat} {oid onum txn : String} {o : Order} {db1 : DB}
    (hcreate : create_order db uid data now oid onum txn = (.ok o, db1))
    (hfresh : db.getOrder oid = none)
    (note : Option String) (now' : Nat) :
    ∃ o2 db2,
      update_order_status db1 oid ⟨"cancelled", note⟩ uid now' = (.ok o2, db2) ∧
      db2.products = db.products ∧
      o2.status = "cancelled" ∧
      o2.timeline = o.timeline ++ [⟨"cancelled", now', note⟩] ∧
      o2.items = o.items ∧
      o2.order_id = o.order_id := by
  obtain ⟨user, items, hu, hpi, hitems, hsummary, hUid, hOid, hStatus, hTl, hdb⟩ :=
    create_order_ok_inv hcreate
  have horders : db1.orders = db.orders ++ [o] := by rw [hdb]
  have hprods : db1.products = reserveStock data.items db.products := by rw [hdb]
  have hfind : db.orders.find? (fun x => x.order_id == oid) = none := hfresh
  have hget : db1.getOrder oid = some o := by
    unfold DB.getOrder
    rw [horders, find?_append_left_none _ hfind]
    have hbo : (o.order_id == oid) = true := by simp [hOid]
    simp [List.find?_cons, hbo]
  refine ⟨o.add_timeline_entry "cancelled" note now',
    { db1 with
      products :=
        restoreStock (o.add_timeline_entry "cancelled" note now').items db1.products
      orders := saveOrder (o.add_timeline_entry "cancelled" note now') db1.orders },
    ?_, ?_, rfl, rfl, rfl, rfl⟩
  · unfold update_order_status
    rw [hget]
    have h1 : ¬ (o.user_id ≠ uid) := by simp [hUid]
    have h2 : (("cancelled" : String) == "cancelled" && o.status == "pending") = true := by
      simp [hStatus]
    simp [h1, h2, hStatus]
  · show restoreStock (o.add_timeline_entry "cancelled" note now').items db1.products =
      db.products
    have hi : (o.add_timeline_entry "cancelled" note now').items = o.items := rfl
    rw [hi, hprods, hitems]
    exact restore_reserve_roundtrip (processOrderItems_keys hpi) db.products

/-- C3 witness: creating and then cancelling the demo order round-trips the
product collection. -/
theorem claimC3_cancel_restores_inventory_witness :
    ∃ o2 db2,
      update_order_status demoDB1 "o1" ⟨"cancelled", some "changed my mind"⟩
          "alice" 7 = (.ok o2, db2) ∧
      db2.products = demoDB.products ∧
      o2.status = "cancelled" ∧
      o2.timeline = demoOrder.timeline ++ [⟨"cancelled", 7, some "changed my mind"⟩] ∧
      o2.items = demoOrder.items ∧
      o2.order_id = demoOrder.order_id :=
  claimC3_cancel_restores_inventory demo_create_run rfl (some "changed my mind") 7

end Ecom

namespace Ecom

/-! ## C10: review votes — repeat votes only rewrite the vote document -/

/-- Keep only each user's first vote, skipping users already `seen`. -/
def firstVotes (seen : List String) : List (String × Bool) → List (String × Bool)
  | [] => []
  | (u, b) :: rest =>
    if u ∈ seen then firstVotes seen rest
    else (u, b) :: firstVotes (u :: seen) rest

/-- Run a sequence of votes `(user, is_helpful)` against one review. -/
def runVotes (db : DB) (review_id : String) : List (String × Bool) → DB
  | [] => db
  | (u, b) :: rest =>
      runVotes (vote_on_review db review_id ⟨b⟩ u).2 review_id rest

/-- `updateVoteFlag` rewrites exactly the first matching vote document. -/
theorem updateVoteFlag_decomp (rid u : String) (b : Bool)
    (pre : List ReviewVote) (v0 : ReviewVote) (post : List ReviewVote)
    (hpre : ∀ v ∈ pre, ¬(v.review_id = rid ∧ v.user_id = u))
    (h0 : v0.review_id = rid) (h1 : v0.user_id = u) :
    updateVoteFlag rid u b (pre ++ v0 :: post) =
      pre ++ { v0 with is_helpful := b } :: post := by
  induction pre with
  | nil =>
    have hc : (v0.review_id == rid && v0.user_id == u) = true := by simp [h0, h1]
    simp [updateVoteFlag, hc]
  | cons v rest ih =>
    have hv := hpre v (by simp)
    have hc : (v.review_id == rid && v.user_id == u) = false := by
      by_cases ha : v.review_id = rid
      · have : v.user_id ≠ u := fun hb => hv ⟨ha, hb⟩
        simp [this]
      · simp [ha]
    simp only [List.cons_append, updateVoteFlag, hc, Bool.false_eq_true,
      if_false, List.cons.injEq, true_and]
    exact ih (fun w hw => hpre w (by simp [hw]))

/-- `updateVoteFlag` preserves each document's user id. -/
theorem updateVoteFlag_map_user (rid u : String) (b : Bool)
    (votes : List ReviewVote) :
    (updateVoteFlag rid u b votes).map (fun v => v.user_id) =
      votes.map (fun v => v.user_id) := by
  induction votes with
  | nil => rfl
  | cons v rest ih =>
    by_cases hc : (v.review_id == rid && v.user_id == u) = true
    · simp [updateVoteFlag, hc]
    · simp only [Bool.not_eq_true] at hc
      simp [updateVoteFlag, hc, ih]

/-- `updateVoteFlag` preserves each document's review id. -/
theorem updateVoteFlag_all_rid {rid' : String} {votes : List ReviewVote}
    (hall : ∀ v ∈ votes, v.review_id = rid') (rid u : String) (b : Bool) :
    ∀ v ∈ updateVoteFlag rid u b votes, v.review_id = rid' := by
  induction votes with
  | nil => simp [updateVoteFlag]
  | cons v rest ih =>
    by_cases hc : (v.review_id == rid && v.user_id == u) = true
    · simp only [updateVoteFlag, hc, if_true]
      intro w hw
      rcases List.mem_cons.mp hw with h | h
      · rw [h]; exact hall v (by simp)
      · exact hall w (by simp [h])
    · simp only [Bool.not_eq_true] at hc
      simp only [updateVoteFlag, hc, Bool.false_eq_true, if_false]
      intro w hw
      rcases List.mem_cons.mp hw with h | h
      · rw [h]; exact hall v (by simp)
      · exact ih (fun x hx => hall x (by simp [hx])) w h

/-- No stored vote matches a user who has not voted. -/
theorem find_vote_none {votes : List ReviewVote} (rid : String) {u : String}
    (hnot : ¬ u ∈ votes.map (fun v => v.user_id)) :
    votes.find? (fun v => v.review_id == rid && v.user_id == u) = none := by
  rw [List.find?_eq_none]
  intro v hv
  simp only [Bool.and_eq_true, beq_iff_eq, not_and]
  intro _ h2
  exact hnot (List.mem_map.mpr ⟨v, hv, h2⟩)

/-- Some stored vote matches a user who has voted (all votes being for the
review in question). -/
theorem find_vote_some {votes : List ReviewVote} {rid u : String}
    (hall : ∀ v ∈ votes, v.review_id = rid)
    (hmem : u ∈ votes.map (fun v => v.user_id)) :
    ∃ v0, votes.find? (fun v => v.review_id == rid && v.user_id == u) = some v0 := by
  obtain ⟨v, hv, he⟩ := List.mem_map.mp hmem
  have : (votes.find? (fun v => v.review_id == rid && v.user_id == u)).isSome := by
    rw [List.find?_isSome]
    exact ⟨v, hv, by simp [hall v hv, he]⟩
  exact Option.isSome_iff_exists.mp this

end Ecom

namespace Ecom

/-- `add_helpful_vote` keeps the review's identity. -/
theorem add_helpful_vote_review_id (r : Review) (b : Bool) :
    (r.add_helpful_vote b).review_id = r.review_id := rfl

/-- Saving an updated copy of the only review replaces it. -/
theorem saveReview_single (r r' : Review) (h : r'.review_id = r.review_id) :
    saveReview r' [r] = [r'] := by
  have : (r.review_id == r'.review_id) = true := by simp [h]
  simp [saveReview, this]

/-- A repeat vote only rewrites the stored vote documents. -/
theorem vote_step_repeat {db : DB} {rid u : String} (b : Bool) {r : Review}
    (hrev : db.reviews = [r]) (hrid : r.review_id = rid)
    (hall : ∀ v ∈ db.review_votes, v.review_id = rid)
    (hmem : u ∈ db.review_votes.map (fun v => v.user_id)) :
    vote_on_review db rid ⟨b⟩ u =
      (.ok (), { db with review_votes := updateVoteFlag rid u b db.review_votes }) := by
  have hfr : db.reviews.find? (fun x => x.review_id == rid) = some r := by
    rw [hrev]
    have : (r.review_id == rid) = true := by simp [hrid]
    simp [List.find?_cons, this]
  obtain ⟨v0, hv0⟩ := find_vote_some hall hmem
  simp [vote_on_review, hfr, hv0]

/-- A first vote appends the vote document and bumps the review counters. -/
theorem vote_step_new {db : DB} {rid u : String} (b : Bool) {r : Review}
    (hrev : db.reviews = [r]) (hrid : r.review_id = rid)
    (hnot : ¬ u ∈ db.review_votes.map (fun v => v.user_id)) :
    vote_on_review db rid ⟨b⟩ u =
      (.ok (), { db with
        review_votes := db.review_votes ++ [⟨rid, u, b⟩]
        reviews := [r.add_helpful_vote b] }) := by
  have hfr : db.reviews.find? (fun x => x.review_id == rid) = some r := by
    rw [hrev]
    have : (r.review_id == rid) = true := by simp [hrid]
    simp [List.find?_cons, this]
  have hfv := find_vote_none rid hnot
  have hsave : saveReview (r.add_helpful_vote b) db.reviews = [r.add_helpful_vote b] := by
    rw [hrev]
    exact saveReview_single r _ (add_helpful_vote_review_id r b)
  simp [vote_on_review, hfr, hfv, hsave]

/-- `firstVotes` only depends on the membership of `seen`. -/
theorem firstVotes_congr :
    ∀ (votes : List (String × Bool)) (seen1 seen2 : List String),
      (∀ x, x ∈ seen1 ↔ x ∈ seen2) →
      firstVotes seen1 votes = firstVotes seen2 votes := by
  intro votes
  induction votes with
  | nil => intro _ _ _; rfl
  | cons p rest ih =>
    intro seen1 seen2 hiff
    obtain ⟨u, b⟩ := p
    by_cases hm : u ∈ seen1
    · simp only [firstVotes, if_pos hm, if_pos ((hiff u).mp hm)]
      exact ih seen1 seen2 hiff
    · have hm2 : ¬ u ∈ seen2 := fun hc => hm ((hiff u).mpr hc)
      simp only [firstVotes, if_neg hm, if_neg hm2, List.cons.injEq, true_and]
      refine ih (u :: seen1) (u :: seen2) ?_
      intro x
      simp [hiff x]

/-- The trace invariant: after running a vote sequence against the single
review of the database, the counters grew by the number of new first-time
voters and the number of new first-time helpful votes. -/
theorem runVotes_spec (rid : String) :
    ∀ (votes : List (String × Bool)) (db : DB) (r : Review),
      db.reviews = [r] → r.review_id = rid →
      (∀ v ∈ db.review_votes, v.review_id = rid) →
      ∃ r', (runVotes db rid votes).reviews = [r'] ∧
        r'.review_id = rid ∧
        r'.total_votes = r.total_votes +
          (firstVotes (db.review_votes.map (fun v => v.user_id)) votes).length ∧
        r'.helpful_votes = r.helpful_votes +
          ((firstVotes (db.review_votes.map (fun v => v.user_id)) votes).filter
            (fun p => p.2)).length := by
  intro votes
  induction votes with
  | nil =>
    intro db r hrev hrid hall
    exact ⟨r, hrev, hrid, by simp [firstVotes], by simp [firstVotes]⟩
  | cons p rest ih =>
    intro db r hrev hrid hall
    obtain ⟨u, b⟩ := p
    by_cases hm : u ∈ db.review_votes.map (fun v => v.user_id)
    · -- repeat vote: counters and voter set unchanged
      have hstep := vote_step_repeat b hrev hrid hall hm
      have hrun : runVotes db rid ((u, b) :: rest) =
          runVotes { db with
            review_votes := updateVoteFlag rid u b db.review_votes } rid rest := by
        simp only [runVotes, hstep]
      rw [hrun]
      obtain ⟨r', h1, h2, h3, h4⟩ :=
        ih { db with review_votes := updateVoteFlag rid u b db.review_votes } r
          hrev hrid (updateVoteFlag_all_rid hall rid u b)
      refine ⟨r', h1, h2, ?_, ?_⟩
      · rw [h3, updateVoteFlag_map_user]
        simp only [firstVotes, if_pos hm]
      · rw [h4, updateVoteFlag_map_user]
        simp only [firstVotes, if_pos hm]
    · -- first vote: one new voter
      have hstep := vote_step_new b hrev hrid hm
      have hrun : runVotes db rid ((u, b) :: rest) =
          runVotes { db with
            review_votes := db.review_votes ++ [⟨rid, u, b⟩]
            reviews := [r.add_helpful_vote b] } rid rest := by
        simp only [runVotes, hstep]
      rw [hrun]
      have hall' : ∀ v ∈ db.review_votes ++ [(⟨rid, u, b⟩ : ReviewVote)],
          v.review_id = rid := by
        intro v hv
        rcases List.mem_append.mp hv with h | h
        · exact hall v h
        · simp at h
          rw [h]
      obtain ⟨r', h1, h2, h3, h4⟩ :=
        ih { db with
              review_votes := db.review_votes ++ [⟨rid, u, b⟩]
              reviews := [r.add_helpful_vote b] }
          (r.add_helpful_vote b) rfl (add_helpful_vote_review_id r b ▸ hrid) hall'
      have hseen : firstVotes
          ((db.review_votes ++ [(⟨rid, u, b⟩ : ReviewVote)]).map
            (fun v => v.user_id)) rest =
          firstVotes (u :: db.review_votes.map (fun v => v.user_id)) rest := by
        refine firstVotes_congr rest _ _ ?_
        intro x
        simp [or_comm]
      refine ⟨r', h1, h2, ?_, ?_⟩
      · rw [h3]
        simp only [hseen, firstVotes, if_neg hm, List.length_cons,
          Review.add_helpful_vote]
        push_cast
        omega
      · rw [h4]
        simp only [hseen, firstVotes, if_neg hm, Review.add_helpful_vote,
          List.filter_cons]
        by_cases hb : b = true
        · subst hb
          simp only [if_pos rfl]
          push_cast
          simp only [List.length_cons]
          omega
        · have hbf : b = false := by
            cases b
            · rfl
            · exact absurd rfl hb
          subst hbf
          simp

end Ecom

namespace Ecom

/-- The first-vote list names each voter at most once, and never a user
already seen. -/
theorem firstVotes_users_nodup :
    ∀ (votes : List (String × Bool)) (seen : List String),
      ((firstVotes seen votes).map Prod.fst).Nodup ∧
      ∀ u ∈ (firstVotes seen votes).map Prod.fst, ¬ u ∈ seen := by
  intro votes
  induction votes with
  | nil => intro seen; exact ⟨List.nodup_nil, by simp [firstVotes]⟩
  | cons p rest ih =>
    intro seen
    obtain ⟨u, b⟩ := p
    by_cases hm : u ∈ seen
    · simpa [firstVotes, hm] using ih seen
    · obtain ⟨hnd, hnotin⟩ := ih (u :: seen)
      constructor
      · simp only [firstVotes, if_neg hm, List.map_cons, List.nodup_cons]
        exact ⟨fun hc => (hnotin u hc) (by simp), hnd⟩
      · intro x hx
        simp only [firstVotes, if_neg hm, List.map_cons, List.mem_cons] at hx
        rcases hx with h | h
        · rw [h]; exact hm
        · exact fun hc => hnotin x h (by simp [hc])

/-- A user appears in the first-vote list iff they voted and were not seen. -/
theorem firstVotes_users_mem :
    ∀ (votes : List (String × Bool)) (seen : List String) (x : String),
      x ∈ (firstVotes seen votes).map Prod.fst ↔
        (x ∈ votes.map Prod.fst ∧ ¬ x ∈ seen) := by
  intro votes
  induction votes with
  | nil => intro seen x; simp [firstVotes]
  | cons p rest ih =>
    intro seen x
    obtain ⟨u, b⟩ := p
    by_cases hm : u ∈ seen
    · simp only [firstVotes, if_pos hm, List.map_cons, List.mem_cons]
      rw [ih seen x]
      constructor
      · rintro ⟨h1, h2⟩
        exact ⟨Or.inr h1, h2⟩
      · rintro ⟨h1 | h1, h2⟩
        · exact absurd (h1 ▸ hm) h2
        · exact ⟨h1, h2⟩
    · simp only [firstVotes, if_neg hm, List.map_cons, List.mem_cons]
      rw [ih (u :: seen) x]
      constructor
      · rintro (h | ⟨h1, h2⟩)
        · exact ⟨Or.inl h, h ▸ hm⟩
        · exact ⟨Or.inr h1, fun hc => h2 (by simp [hc])⟩
      · rintro ⟨h1 | h1, h2⟩
        · exact Or.inl h1
        · by_cases hxu : x = u
          · exact Or.inl hxu
          · exact Or.inr ⟨h1, by simp [hxu, h2]⟩

/-- C10: a repeat vote by a user who already voted on a review rewrites only
that user's stored `ReviewVote` document (its `is_helpful` flag), leaving the
review — hence its `helpful_votes` and `total_votes` counters — untouched;
consequently, over any vote sequence against a fresh review, `total_votes`
equals the number of distinct users who ever voted and `helpful_votes` counts
each voter's first vote rather than their current one. -/
theorem claimC10_repeat_vote_only_rewrites_vote_doc :
    (∀ (db : DB) (rid u : String) (b : Bool) (r : Review) (v0 : ReviewVote)
        (pre post : List ReviewVote),
      db.reviews.find? (fun x => x.review_id == rid) = some r →
      db.review_votes = pre ++ v0 :: post →
      (∀ v ∈ pre, ¬(v.review_id = rid ∧ v.user_id = u)) →
      v0.review_id = rid → v0.user_id = u →
      vote_on_review db rid ⟨b⟩ u =
        (.ok (),
         { db with
           review_votes := pre ++ { v0 with is_helpful := b } :: post })) ∧
    (∀ (r0 : Review) (db0 : DB) (votes : List (String × Bool)),
      db0.reviews = [r0] → db0.review_votes = [] →
      ∃ r', (runVotes db0 r0.review_id votes).reviews = [r'] ∧
        r'.total_votes = r0.total_votes + (firstVotes [] votes).length ∧
        r'.helpful_votes = r0.helpful_votes +
          ((firstVotes [] votes).filter (fun p => p.2)).length ∧
        ((firstVotes [] votes).map Prod.fst).Nodup ∧
        (∀ u, u ∈ (firstVotes [] votes).map Prod.fst ↔
          u ∈ votes.map Prod.fst)) := by
  constructor
  · intro db rid u b r v0 pre post hfr hdecomp hpre h0 h1
    have hfv : db.review_votes.find?
        (fun v => v.review_id == rid && v.user_id == u) = some v0 := by
      rw [hdecomp]
      have hnone : pre.find? (fun v => v.review_id == rid && v.user_id == u) = none := by
        rw [List.find?_eq_none]
        intro v hv
        simp only [Bool.and_eq_true, beq_iff_eq, not_and]
        intro ha hb
        exact (hpre v hv) ⟨ha, hb⟩
      rw [find?_append_left_none _ hnone]
      have hp : (v0.review_id == rid && v0.user_id == u) = true := by simp [h0, h1]
      exact List.find?_cons_of_pos _ hp
    have hupd : updateVoteFlag rid u b db.review_votes =
        pre ++ { v0 with is_helpful := b } :: post := by
      rw [hdecomp]
      exact updateVoteFlag_decomp rid u b pre v0 post hpre h0 h1
    simp [vote_on_review, hfr, hfv, hupd]
  · intro r0 db0 votes hrev hempty
    have hall : ∀ v ∈ db0.review_votes, v.review_id = r0.review_id := by
      rw [hempty]; simp
    obtain ⟨r', h1, -, h3, h4⟩ := runVotes_spec r0.review_id votes db0 r0 hrev rfl hall
    have hmap : db0.review_votes.map (fun v => v.user_id) = [] := by
      rw [hempty]; rfl
    rw [hmap] at h3 h4
    exact ⟨r', h1, h3, h4, (firstVotes_users_nodup votes []).1, fun u => by
      rw [firstVotes_users_mem votes [] u]; simp⟩

/-- A fresh review with zero counters. -/
def demoReview : Review :=
  { review_id := "r1", product_id := "p1", user_id := "carol",
    helpful_votes := 0, total_votes := 0 }

def demoReviewDB : DB :=
  { users := [], products := [], orders := [], carts := [],
    reviews := [demoReview], review_votes := [] }

/-- The database after one helpful vote by "u1" on the demo review. -/
def demoVotedDB : DB :=
  { users := [], products := [], orders := [], carts := [],
    reviews := [{ demoReview with helpful_votes := 1, total_votes := 1 }],
    review_votes := [⟨"r1", "u1", true⟩] }

/-- C10 witness: "u1" flipping their vote to unhelpful rewrites only the vote
document; a trace `u1:helpful, u2:unhelpful, u1:unhelpful` against a fresh
review yields the counters of the first votes of the two distinct voters. -/
theorem claimC10_repeat_vote_only_rewrites_vote_doc_witness :
    (vote_on_review demoVotedDB "r1" ⟨false⟩ "u1" =
      (.ok (),
       { demoVotedDB with
         review_votes := [] ++ (⟨"r1", "u1", false⟩ : ReviewVote) :: [] })) ∧
    ∃ r', (runVotes demoReviewDB demoReview.review_id
        [("u1", true), ("u2", false), ("u1", false)]).reviews = [r'] ∧
      r'.total_votes = demoReview.total_votes +
        (firstVotes [] [("u1", true), ("u2", false), ("u1", false)]).length ∧
      r'.helpful_votes = demoReview.helpful_votes +
        ((firstVotes [] [("u1", true), ("u2", false), ("u1", false)]).filter
          (fun p => p.2)).length ∧
      ((firstVotes [] [("u1", true), ("u2", false), ("u1", false)]).map
        Prod.fst).Nodup ∧
      (∀ u, u ∈ (firstVotes [] [("u1", true), ("u2", false), ("u1", false)]).map
          Prod.fst ↔
        u ∈ [("u1", true), ("u2", false), ("u1", false)].map Prod.fst) :=
  ⟨claimC10_repeat_vote_only_rewrites_vote_doc.1 demoVotedDB "r1" "u1" false
      { demoReview with helpful_votes := 1, total_votes := 1 }
      ⟨"r1", "u1", true⟩ [] [] rfl rfl (by simp) rfl rfl,
   claimC10_repeat_vote_only_rewrites_vote_doc.2 demoReview demoReviewDB
      [("u1", true), ("u2", false), ("u1", false)] rfl rfl⟩

end Ecom
